import Mathlib

/-!
Shallow embedding of the replay-buffer core of rljax
(`src/rljax/buffer/slac_buffer.py`): `LazyFrames`, `SequenceBuffer` and
`SLACReplayBuffer`, together with theorems settling the stated properties.

Modelling conventions:
- Python `assert` failures and raised exceptions become `Except.error`.
- A `collections.deque` with `maxlen = m` is a `List` together with the
  push operation `dequePush m`, which appends on the right and drops from
  the left when the length would exceed `m` (Python deque semantics).
- `np.random.randint(low, high, size)` is modelled by `npRandint`, which is
  parametrised over an entropy source `g : Nat → Nat`; per the numpy
  documentation it raises `ValueError` when `low >= high`.
- The `np.float32` / `np.int32` casts applied by `SequenceBuffer.get` are
  modelled by abstract elementwise cast functions `castA`, `castR` passed
  as arguments; the buffer element types are left as type parameters.
- `float(done)` stores `1` or `0` (as a rational) in the `done` array.
-/

namespace Rljax

/-- Push onto a Python `collections.deque` with maximum length `maxlen`:
append `x` on the right, then drop elements from the left until the length
is at most `maxlen`. -/
def dequePush (maxlen : Nat) (d : List α) (x : α) : List α :=
  let d2 := d ++ [x]
  d2.drop (d2.length - maxlen)

/-- Length of a deque after a push: it grows by one until `maxlen` is
reached and is capped there. -/
theorem dequePush_length (maxlen : Nat) (d : List α) (x : α) :
    (dequePush maxlen d x).length = min (d.length + 1) maxlen := by
  simp [dequePush]
  omega

/-- Pushing onto a deque that is exactly at capacity (`maxlen > 0`) drops
the oldest element and appends the new one on the right. -/
theorem dequePush_at_capacity (maxlen : Nat) (d : List α) (x : α)
    (hlen : d.length = maxlen) (hpos : 0 < maxlen) :
    dequePush maxlen d x = d.tail ++ [x] := by
  cases d with
  | nil => simp at hlen; omega
  | cons y ys =>
      simp [dequePush]
      have h1 : ys.length + 1 + 1 - maxlen = 1 := by
        simp at hlen; omega
      simp [h1]

/-- Pushing onto a deque strictly below capacity appends on the right and
drops nothing. -/
theorem dequePush_below_capacity (maxlen : Nat) (d : List α) (x : α)
    (hlen : d.length < maxlen) :
    dequePush maxlen d x = d ++ [x] := by
  have h1 : d.length + 1 - maxlen = 0 := by omega
  simp [dequePush, h1]

/-- Embedding of `LazyFrames`: a wrapper around an ordered list of frames,
materialised on demand. -/
structure LazyFrames (S : Type) where
  frames : List S
deriving DecidableEq

/-- Embedding of `SequenceBuffer`: per-episode sliding-window accumulator.
`state_`, `action_` and `reward_` model the three deques (with maximum
lengths `num_sequences + 1`, `num_sequences`, `num_sequences`), and
`_reset_episode` is the episode-in-progress flag.  A reward is stored
wrapped as the single-element list `[reward]`, as in the source. -/
structure SequenceBuffer (S A R : Type) where
  num_sequences : Nat
  _reset_episode : Bool
  state_ : List S
  action_ : List A
  reward_ : List (List R)
deriving DecidableEq

/-- Embedding of `SequenceBuffer.reset`: clear the flag and all three
deques. -/
def SequenceBuffer.reset (b : SequenceBuffer S A R) : SequenceBuffer S A R :=
  { b with _reset_episode := false, state_ := [], action_ := [], reward_ := [] }

/-- Embedding of `SequenceBuffer.__init__`: store `num_sequences` and call
`reset`. -/
def seqInit (S A R : Type) (num_sequences : Nat) : SequenceBuffer S A R :=
  SequenceBuffer.reset
    { num_sequences := num_sequences, _reset_episode := false,
      state_ := [], action_ := [], reward_ := [] }

/-- Embedding of `SequenceBuffer.reset_episode`: `assert not
self._reset_episode`, set the flag, push the initial state. -/
def SequenceBuffer.reset_episode (b : SequenceBuffer S A R) (state : S) :
    Except String (SequenceBuffer S A R) :=
  if b._reset_episode then
    Except.error "AssertionError: not self._reset_episode"
  else
    Except.ok { b with _reset_episode := true,
                       state_ := dequePush (b.num_sequences + 1) b.state_ state }

/-- Embedding of `SequenceBuffer.append`: `assert self._reset_episode`,
then push the action, the reward wrapped as `[reward]`, and the next
state. -/
def SequenceBuffer.append (b : SequenceBuffer S A R)
    (action : A) (reward : R) (next_state : S) :
    Except String (SequenceBuffer S A R) :=
  if b._reset_episode then
    Except.ok { b with
      action_ := dequePush b.num_sequences b.action_ action,
      reward_ := dequePush b.num_sequences b.reward_ [reward],
      state_ := dequePush (b.num_sequences + 1) b.state_ next_state }
  else
    Except.error "AssertionError: self._reset_episode"

/-- Embedding of `SequenceBuffer.get`: return the lazily wrapped state
sequence and the action / reward deques materialised as dense arrays via
the elementwise casts (`np.float32` in the source), together with the
(unchanged) buffer state.  The source method only reads the deques. -/
def SequenceBuffer.get (b : SequenceBuffer S A R)
    (castA : A → A2) (castR : R → R2) :
    (LazyFrames S × List A2 × List (List R2)) × SequenceBuffer S A R :=
  ((⟨b.state_⟩, b.action_.map castA, b.reward_.map (List.map castR)), b)

/-- Embedding of `SequenceBuffer.is_empty`: the reward deque is empty. -/
def SequenceBuffer.is_empty (b : SequenceBuffer S A R) : Bool :=
  b.reward_.length == 0

/-- Embedding of `SequenceBuffer.is_full`: the reward deque holds exactly
`num_sequences` entries. -/
def SequenceBuffer.is_full (b : SequenceBuffer S A R) : Bool :=
  b.reward_.length == b.num_sequences

/-- Whether an `Except` computation ended in an error (a Python assertion
failure or raised exception in the source). -/
def errored : Except ε α → Bool
  | Except.error _ => true
  | Except.ok _ => false

/-- Run a list of `append` calls against a `SequenceBuffer`, stopping at
the first assertion failure. -/
def runAppends (b : SequenceBuffer S A R) :
    List (A × R × S) → Except String (SequenceBuffer S A R)
  | [] => Except.ok b
  | t :: rest =>
      (b.append t.1 t.2.1 t.2.2).bind (fun b2 => runAppends b2 rest)

/-- A successful run of `append` calls from a state whose episode flag is
set always succeeds, keeps the flag set, keeps `num_sequences`, and leaves
the three deques with the deque-capped lengths. -/
theorem runAppends_lengths (l : List (A × R × S)) :
    ∀ b : SequenceBuffer S A R, b._reset_episode = true →
    b.reward_.length ≤ b.num_sequences →
    b.action_.length ≤ b.num_sequences →
    b.state_.length ≤ b.num_sequences + 1 →
    ∃ b2, runAppends b l = Except.ok b2 ∧
      b2._reset_episode = true ∧
      b2.num_sequences = b.num_sequences ∧
      b2.reward_.length = min (b.reward_.length + l.length) b.num_sequences ∧
      b2.action_.length = min (b.action_.length + l.length) b.num_sequences ∧
      b2.state_.length = min (b.state_.length + l.length) (b.num_sequences + 1) := by
  induction l with
  | nil =>
      intro b hb hr ha hs
      refine ⟨b, rfl, hb, rfl, ?_, ?_, ?_⟩ <;> simp <;> omega
  | cons t rest ih =>
      intro b hb hr ha hs
      have hstep : b.append t.1 t.2.1 t.2.2 = Except.ok
          { b with
            action_ := dequePush b.num_sequences b.action_ t.1,
            reward_ := dequePush b.num_sequences b.reward_ [t.2.1],
            state_ := dequePush (b.num_sequences + 1) b.state_ t.2.2 } := by
        simp [SequenceBuffer.append, hb]
      obtain ⟨b2, hrun, hflag, hnum, hrew, hact, hst⟩ :=
        ih { b with
              action_ := dequePush b.num_sequences b.action_ t.1,
              reward_ := dequePush b.num_sequences b.reward_ [t.2.1],
              state_ := dequePush (b.num_sequences + 1) b.state_ t.2.2 } hb
          (by simp [dequePush_length])
          (by simp [dequePush_length])
          (by simp [dequePush_length])
      refine ⟨b2, ?_, hflag, hnum, ?_, ?_, ?_⟩
      · simp [runAppends, hstep, Except.bind, hrun]
      · rw [hrew]; simp [dequePush_length]; omega
      · rw [hact]; simp [dequePush_length]; omega
      · rw [hst]; simp [dequePush_length]; omega

/-- C3 counterexample: with `num_sequences = 2`, after three `append`
calls `is_full()` is true although three (not exactly two) rewards have
been appended since the last `reset`/`reset_episode`, so the claimed
biconditional "`is_full()` iff exactly `num_sequences` rewards have been
appended" is false at this input. -/
theorem c3_counterexample :
    (((seqInit Nat Nat Nat 2).reset_episode 0).bind
        (fun b => runAppends b [(5, 6, 1), (7, 8, 2), (9, 10, 3)])).map
      SequenceBuffer.is_full = Except.ok true
    ∧ (3 : Nat) ≠ 2 := by
  exact ⟨rfl, by decide⟩

/-- C3 (amended): starting from a freshly reset `SequenceBuffer` on which
`reset_episode` has been called, after any run of `append` calls:
`is_full()` is true iff at least `num_sequences` rewards have been
appended (equivalently, iff exactly `num_sequences` rewards are stored,
equivalently iff the buffer holds `num_sequences + 1` states); when the
run is bounded by `num_sequences`, this is "exactly `num_sequences`
appended"; and `is_empty()` is true iff zero rewards are stored
(for positive `num_sequences`, equivalently iff zero appends were
made). -/
theorem c3_is_full_iff_enough_appends
    {S A R : Type} (N : Nat) (s0 : S) (l : List (A × R × S))
    (b1 b2 : SequenceBuffer S A R)
    (h1 : (seqInit S A R N).reset_episode s0 = Except.ok b1)
    (h2 : runAppends b1 l = Except.ok b2) :
    (b2.is_full = true ↔ N ≤ l.length)
    ∧ (l.length ≤ N → (b2.is_full = true ↔ l.length = N))
    ∧ (b2.is_full = true ↔ b2.reward_.length = N)
    ∧ (b2.is_full = true ↔ b2.state_.length = N + 1)
    ∧ (b2.is_empty = true ↔ b2.reward_.length = 0)
    ∧ (0 < N → (b2.is_empty = true ↔ l.length = 0)) := by
  have hb1 : b1 = { num_sequences := N, _reset_episode := true,
                    state_ := [s0], action_ := [], reward_ := [] } := by
    simp [seqInit, SequenceBuffer.reset, SequenceBuffer.reset_episode,
      dequePush] at h1
    exact h1.symm
  subst hb1
  obtain ⟨b', hrun, hflag, hnum, hrew, hact, hst⟩ :=
    runAppends_lengths l (SequenceBuffer.mk N true [s0] [] []) rfl
      (by simp) (by simp) (by simp)
  rw [h2] at hrun
  have hb2 : b2 = b' := by
    cases hrun
    rfl
  subst hb2
  have hrew2 : b2.reward_.length = min l.length N := by
    rw [hrew]; simp
  have hst2 : b2.state_.length = min (1 + l.length) (N + 1) := by
    rw [hst]; simp
  have hnum2 : b2.num_sequences = N := hnum
  clear hrun hflag hnum hrew hact hst h1 h2
  simp only [SequenceBuffer.is_full, SequenceBuffer.is_empty, hnum2, hrew2,
    hst2, beq_iff_eq]
  clear hrew2 hst2 hnum2 b2
  rcases Nat.le_total l.length N with hc | hc
  · rw [min_eq_left hc, min_eq_left (by omega : 1 + l.length ≤ N + 1)]
    refine ⟨?_, ?_, ?_, ?_, ?_, ?_⟩ <;> first | trivial | omega
  · rw [min_eq_right hc, min_eq_right (by omega : N + 1 ≤ 1 + l.length)]
    refine ⟨?_, ?_, ?_, ?_, ?_, ?_⟩ <;> first | trivial | omega

/-- C3 witness: the amended statement instantiated at `num_sequences = 2`
with three appends. -/
theorem c3_witness :
    (((SequenceBuffer.mk 2 true [1, 2, 3] [7, 9] [[8], [10]] :
          SequenceBuffer Nat Nat Nat).is_full = true ↔ 2 ≤ 3)
    ∧ (3 ≤ 2 → ((SequenceBuffer.mk 2 true [1, 2, 3] [7, 9] [[8], [10]] :
          SequenceBuffer Nat Nat Nat).is_full = true ↔ 3 = 2))
    ∧ ((SequenceBuffer.mk 2 true [1, 2, 3] [7, 9] [[8], [10]] :
          SequenceBuffer Nat Nat Nat).is_full = true ↔
        (SequenceBuffer.mk 2 true [1, 2, 3] [7, 9] [[8], [10]] :
          SequenceBuffer Nat Nat Nat).reward_.length = 2)
    ∧ ((SequenceBuffer.mk 2 true [1, 2, 3] [7, 9] [[8], [10]] :
          SequenceBuffer Nat Nat Nat).is_full = true ↔
        (SequenceBuffer.mk 2 true [1, 2, 3] [7, 9] [[8], [10]] :
          SequenceBuffer Nat Nat Nat).state_.length = 2 + 1)
    ∧ ((SequenceBuffer.mk 2 true [1, 2, 3] [7, 9] [[8], [10]] :
          SequenceBuffer Nat Nat Nat).is_empty = true ↔
        (SequenceBuffer.mk 2 true [1, 2, 3] [7, 9] [[8], [10]] :
          SequenceBuffer Nat Nat Nat).reward_.length = 0)
    ∧ ((SequenceBuffer.mk 2 true [1, 2, 3] [7, 9] [[8], [10]] :
          SequenceBuffer Nat Nat Nat).is_empty = true ↔
        ([(5, 6, 1), (7, 8, 2), (9, 10, 3)] :
          List (Nat × Nat × Nat)).length = 0)) := by
  have h := c3_is_full_iff_enough_appends 2 0
    [(5, 6, 1), (7, 8, 2), (9, 10, 3)]
    (SequenceBuffer.mk 2 true [0] [] [])
    (SequenceBuffer.mk 2 true [1, 2, 3] [7, 9] [[8], [10]])
    rfl rfl
  simpa using h

/-- C4: calling `reset_episode` while an episode is in progress (the
`_reset_episode` flag set) fails the assertion; calling `append` when no
episode is in progress (flag clear) fails the assertion; after `reset()`,
`is_empty()` is true and an `append` before `reset_episode` fails. -/
theorem c4_protocol_assertions
    {S A R : Type} (b : SequenceBuffer S A R) (s : S) (a : A) (r : R) :
    errored (({ b with _reset_episode := true } :
        SequenceBuffer S A R).reset_episode s) = true
    ∧ errored (({ b with _reset_episode := false } :
        SequenceBuffer S A R).append a r s) = true
    ∧ b.reset.is_empty = true
    ∧ errored (b.reset.append a r s) = true :=
  ⟨rfl, rfl, rfl, rfl⟩

/-- C8: `get()` returns the tuple (lazy state sequence, action array cast
elementwise, reward array cast elementwise) and leaves the state, action
and reward deques and the episode flag unchanged. -/
theorem c8_get_pure
    {S A R A2 R2 : Type} (b : SequenceBuffer S A R)
    (castA : A → A2) (castR : R → R2) :
    (b.get castA castR).2 = b
    ∧ (b.get castA castR).1.1 = LazyFrames.mk b.state_
    ∧ (b.get castA castR).1.2.1 = b.action_.map castA
    ∧ (b.get castA castR).1.2.2 = b.reward_.map (List.map castR)
    ∧ (b.get castA castR).2.state_ = b.state_
    ∧ (b.get castA castR).2.action_ = b.action_
    ∧ (b.get castA castR).2.reward_ = b.reward_
    ∧ (b.get castA castR).2._reset_episode = b._reset_episode :=
  ⟨rfl, rfl, rfl, rfl, rfl, rfl, rfl, rfl⟩

/-- An abstract `SequenceBuffer` operation, for stating that every
operation sequence preserves the deque-capacity invariant. -/
inductive SeqOp (S A R : Type) where
  | resetOp : SeqOp S A R
  | resetEpisodeOp : S → SeqOp S A R
  | appendOp : A → R → S → SeqOp S A R
  | getOp : SeqOp S A R

/-- Semantics of one `SequenceBuffer` operation (`get` returns the buffer
unchanged, see `SequenceBuffer.get`). -/
def seqStep (b : SequenceBuffer S A R) :
    SeqOp S A R → Except String (SequenceBuffer S A R)
  | SeqOp.resetOp => Except.ok b.reset
  | SeqOp.resetEpisodeOp s => b.reset_episode s
  | SeqOp.appendOp a r s => b.append a r s
  | SeqOp.getOp => Except.ok (b.get id id).2

/-- Run a list of `SequenceBuffer` operations, stopping at the first
assertion failure. -/
def runOps (b : SequenceBuffer S A R) :
    List (SeqOp S A R) → Except String (SequenceBuffer S A R)
  | [] => Except.ok b
  | op :: rest => (seqStep b op).bind (fun b2 => runOps b2 rest)

/-- The deque-capacity invariant of `SequenceBuffer`: the action and
reward deques hold at most `num_sequences` entries and the state deque at
most `num_sequences + 1`. -/
def seqInv (b : SequenceBuffer S A R) : Prop :=
  b.action_.length ≤ b.num_sequences
  ∧ b.reward_.length ≤ b.num_sequences
  ∧ b.state_.length ≤ b.num_sequences + 1

/-- One successful `SequenceBuffer` operation preserves the
deque-capacity invariant. -/
theorem seqStep_inv {S A R : Type} {b b2 : SequenceBuffer S A R}
    {op : SeqOp S A R} (hInv : seqInv b)
    (h : seqStep b op = Except.ok b2) : seqInv b2 := by
  obtain ⟨ha, hr, hs⟩ := hInv
  cases op with
  | resetOp =>
      simp only [seqStep, Except.ok.injEq] at h
      subst h
      simp [SequenceBuffer.reset, seqInv]
  | resetEpisodeOp s =>
      simp only [seqStep, SequenceBuffer.reset_episode] at h
      split at h
      · cases h
      · simp only [Except.ok.injEq] at h
        subst h
        exact ⟨ha, hr, by simp [dequePush_length]⟩
  | appendOp a r s =>
      simp only [seqStep, SequenceBuffer.append] at h
      split at h
      · simp only [Except.ok.injEq] at h
        subst h
        exact ⟨by simp [dequePush_length], by simp [dequePush_length],
          by simp [dequePush_length]⟩
      · cases h
  | getOp =>
      simp only [seqStep, Except.ok.injEq] at h
      subst h
      exact ⟨ha, hr, hs⟩

/-- A successful run of `SequenceBuffer` operations preserves the
deque-capacity invariant. -/
theorem runOps_inv {S A R : Type} :
    ∀ (ops : List (SeqOp S A R)) (b b2 : SequenceBuffer S A R),
      seqInv b → runOps b ops = Except.ok b2 → seqInv b2 := by
  intro ops
  induction ops with
  | nil =>
      intro b b2 hInv h
      simp only [runOps, Except.ok.injEq] at h
      subst h
      exact hInv
  | cons op rest ih =>
      intro b b2 hInv h
      simp only [runOps] at h
      cases hstep : seqStep b op with
      | error e => rw [hstep] at h; cases h
      | ok bm =>
          rw [hstep] at h
          exact ih bm b2 (seqStep_inv hInv hstep) h

/-- C9: every successful sequence of `SequenceBuffer` operations preserves
the invariant that the action and reward deques hold at most
`num_sequences` entries and the state deque at most `num_sequences + 1`;
and a push onto a deque at capacity silently evicts the oldest entry
(sliding-window semantics). -/
theorem c9_deque_invariant {S A R α : Type} :
    (∀ (ops : List (SeqOp S A R)) (b b2 : SequenceBuffer S A R),
        seqInv b → runOps b ops = Except.ok b2 → seqInv b2)
    ∧ (∀ (m : Nat) (d : List α) (x : α), d.length = m → 0 < m →
        dequePush m d x = d.tail ++ [x]) :=
  ⟨runOps_inv, dequePush_at_capacity⟩

/-- C9 witness: the invariant theorem applied to a concrete two-operation
run, and the capacity eviction applied to a concrete full deque. -/
theorem c9_witness :
    seqInv (SequenceBuffer.mk 2 true [0, 3] [1] [[2]] :
        SequenceBuffer Nat Nat Nat)
    ∧ dequePush 2 [1, 2] 3 = List.tail [1, 2] ++ [3] := by
  constructor
  · exact (c9_deque_invariant (S := Nat) (A := Nat) (R := Nat)
        (α := Nat)).1
      [SeqOp.resetEpisodeOp 0, SeqOp.appendOp 1 2 3]
      (seqInit Nat Nat Nat 2)
      (SequenceBuffer.mk 2 true [0, 3] [1] [[2]])
      ⟨by simp [seqInit, SequenceBuffer.reset],
        by simp [seqInit, SequenceBuffer.reset],
        by simp [seqInit, SequenceBuffer.reset]⟩ rfl
  · exact (c9_deque_invariant (S := Nat) (A := Nat) (R := Nat)
        (α := Nat)).2 2 [1, 2] 3 rfl (by decide)



/-- Kind of a gym action space as dispatched on by
`SLACReplayBuffer.__init__`: a continuous `Box` (with a shape), a
`Discrete` space (with a size), or any other space type. -/
inductive ActionSpaceKind where
  | box : List Nat → ActionSpaceKind
  | discrete : Nat → ActionSpaceKind
  | other : ActionSpaceKind
deriving DecidableEq

/-- Numpy dtype of the allocated action storage. -/
inductive NpDType where
  | float32 : NpDType
  | int32 : NpDType
deriving DecidableEq

/-- Embedding of `SLACReplayBuffer`.  The four circular arrays are lists
of fixed length `buffer_size` whose entries are `Option`s: `none` models
an `np.empty` slot that has never been written.  `action_alloc` records
whether and how `self.action_` was allocated by the constructor (dtype and
shape); it is `none` when the action-space dispatch fell through the
unsupported branch, in which case the source never assigns the attribute
(the bare `NotImplementedError` expression there is evaluated and
discarded, not raised).  `S`, `A`, `R` are the raw environment types held
by the internal `SequenceBuffer`; `A2`, `R2` are the element types after
the `SequenceBuffer.get` casts. -/
structure SLACReplayBuffer (S A R A2 R2 : Type) where
  buffer_size : Nat
  num_sequences : Nat
  state_shape : List Nat
  use_image : Bool
  _n : Nat
  _p : Nat
  state_ : List (Option (LazyFrames S))
  action_ : List (Option (List A2))
  action_alloc : Option (NpDType × List Nat)
  reward_ : List (Option (List (List R2)))
  done : List (Option ℚ)
  seq_buffer : SequenceBuffer S A R
deriving DecidableEq

/-- Embedding of `SLACReplayBuffer.__init__`: assert the state shape is
1-D or 3-D, allocate the circular arrays (all slots uninitialised),
dispatch on the action-space kind (`Box` → float32 storage shaped
`buffer_size × num_sequences × action_shape`; `Discrete` → int32 storage
shaped `buffer_size × num_sequences × 1`; any other kind falls through
without raising, leaving `self.action_` unassigned), and create the
internal `SequenceBuffer`. -/
def SLACReplayBuffer.mkInit (S A R A2 R2 : Type) (buffer_size : Nat)
    (state_shape : List Nat) (action_space : ActionSpaceKind)
    (num_sequences : Nat) :
    Except String (SLACReplayBuffer S A R A2 R2) :=
  if state_shape.length = 1 ∨ state_shape.length = 3 then
    Except.ok
      { buffer_size := buffer_size,
        num_sequences := num_sequences,
        state_shape := state_shape,
        use_image := state_shape.length == 3,
        _n := 0,
        _p := 0,
        state_ := List.replicate buffer_size none,
        action_ := List.replicate buffer_size none,
        action_alloc :=
          match action_space with
          | ActionSpaceKind.box shape =>
              some (NpDType.float32, buffer_size :: num_sequences :: shape)
          | ActionSpaceKind.discrete _ =>
              some (NpDType.int32, [buffer_size, num_sequences, 1])
          | ActionSpaceKind.other => none,
        reward_ := List.replicate buffer_size none,
        done := List.replicate buffer_size none,
        seq_buffer := seqInit S A R num_sequences }
  else
    Except.error "AssertionError: len(state_space.shape) in (1, 3)"

/-- Embedding of `SLACReplayBuffer._append`: write the completed window
into the four circular arrays at the cursor `_p`, advance the cursor
modulo `buffer_size`, and grow the count `_n` capped at `buffer_size`.
`float(done)` is stored as the rational `1` or `0`. -/
def SLACReplayBuffer._append (buf : SLACReplayBuffer S A R A2 R2)
    (state_w : LazyFrames S) (action_w : List A2)
    (reward_w : List (List R2)) (doneFlag : Bool) :
    SLACReplayBuffer S A R A2 R2 :=
  { buf with
    state_ := buf.state_.set buf._p (some state_w),
    action_ := buf.action_.set buf._p (some action_w),
    reward_ := buf.reward_.set buf._p (some reward_w),
    done := buf.done.set buf._p (some (if doneFlag then (1 : ℚ) else 0)),
    _p := (buf._p + 1) % buf.buffer_size,
    _n := min (buf._n + 1) buf.buffer_size }

/-- Embedding of `SLACReplayBuffer.reset_episode`: delegate to the
internal sequence buffer. -/
def SLACReplayBuffer.reset_episode (buf : SLACReplayBuffer S A R A2 R2)
    (state : S) : Except String (SLACReplayBuffer S A R A2 R2) :=
  (buf.seq_buffer.reset_episode state).map
    (fun sb => { buf with seq_buffer := sb })

/-- Embedding of `SLACReplayBuffer.append`: feed the transition to the
internal sequence buffer; if it is now full, extract the window via
`get` and flush it with `_append`; if `episode_done`, reset the internal
sequence buffer. -/
def SLACReplayBuffer.append (buf : SLACReplayBuffer S A R A2 R2)
    (castA : A → A2) (castR : R → R2) (action : A) (reward : R)
    (doneFlag : Bool) (next_state : S) (episode_done : Bool) :
    Except String (SLACReplayBuffer S A R A2 R2) :=
  (buf.seq_buffer.append action reward next_state).map (fun sb =>
    let buf1 := { buf with seq_buffer := sb }
    let buf2 :=
      if sb.is_full then
        let w := (sb.get castA castR).1
        buf1._append w.1 w.2.1 w.2.2 doneFlag
      else buf1
    if episode_done then { buf2 with seq_buffer := buf2.seq_buffer.reset }
    else buf2)

/-- Embedding of `np.random.randint(low, high, size)`: `size` independent
uniform draws from `[low, high)`, supplied by an entropy source `g`; per
the numpy documentation a `ValueError` is raised when `low >= high`. -/
def npRandint (low high size : Nat) (g : Nat → Nat) :
    Except String (List Nat) :=
  if low < high then
    Except.ok ((List.range size).map (fun i => low + g i % (high - low)))
  else
    Except.error "ValueError: low >= high"

/-- Read slot `i` of a circular array: `none` when the index is out of
range or the slot was never written. -/
def arrGet (l : List (Option α)) (i : Nat) : Option α :=
  (l[i]?).join

/-- Embedding of `SLACReplayBuffer._sample_idx`: `batch_size` uniform
draws from `[0, _n)`. -/
def SLACReplayBuffer._sample_idx (buf : SLACReplayBuffer S A R A2 R2)
    (batch_size : Nat) (g : Nat → Nat) : Except String (List Nat) :=
  npRandint 0 buf._n batch_size g

/-- Embedding of `SLACReplayBuffer._sample_state`: gather the stored
state windows at the given indices (both the image branch, which
materialises each `LazyFrames`, and the dense branch return the stored
window contents). -/
def SLACReplayBuffer._sample_state (buf : SLACReplayBuffer S A R A2 R2)
    (idxes : List Nat) : List (Option (LazyFrames S)) :=
  idxes.map (fun idx => arrGet buf.state_ idx)

/-- Embedding of `SLACReplayBuffer.sample_latent`: draw indices, then
gather (state windows, full action sequences, full reward sequences, done
flags). -/
def SLACReplayBuffer.sample_latent (buf : SLACReplayBuffer S A R A2 R2)
    (batch_size : Nat) (g : Nat → Nat) :
    Except String (List (Option (LazyFrames S)) × List (Option (List A2))
      × List (Option (List (List R2))) × List (Option ℚ)) :=
  (buf._sample_idx batch_size g).map (fun idxes =>
    (buf._sample_state idxes,
     idxes.map (fun idx => arrGet buf.action_ idx),
     idxes.map (fun idx => arrGet buf.reward_ idx),
     idxes.map (fun idx => arrGet buf.done idx)))

/-- Numpy index `-1` along the time axis of a stored reward sequence: the
row at position `length - 1`. -/
def lastStep (rows : List (List R2)) : Option (List R2) :=
  rows[rows.length - 1]?

/-- Embedding of `SLACReplayBuffer.sample_sac`: like `sample_latent`, but
the reward component keeps only the last time step of each stored reward
sequence (`self.reward_[idxes, -1]`). -/
def SLACReplayBuffer.sample_sac (buf : SLACReplayBuffer S A R A2 R2)
    (batch_size : Nat) (g : Nat → Nat) :
    Except String (List (Option (LazyFrames S)) × List (Option (List A2))
      × List (Option (List R2)) × List (Option ℚ)) :=
  (buf._sample_idx batch_size g).map (fun idxes =>
    (buf._sample_state idxes,
     idxes.map (fun idx => arrGet buf.action_ idx),
     idxes.map (fun idx => (arrGet buf.reward_ idx).bind lastStep),
     idxes.map (fun idx => arrGet buf.done idx)))

/-- C1 (evaluating the code at the failing input): constructing a
`SLACReplayBuffer` with an action space that is neither `Box` nor
`Discrete` does not fail.  The bare `NotImplementedError` expression in
the source's `else` branch is evaluated and discarded (it is not
`raise`d), so `__init__` returns normally and `self.action_` is never
assigned (`action_alloc = none`). -/
theorem c1_unsupported_action_space_not_rejected :
    errored (SLACReplayBuffer.mkInit Nat Nat Nat Nat Nat 4 [3]
      ActionSpaceKind.other 2) = false
    ∧ (SLACReplayBuffer.mkInit Nat Nat Nat Nat Nat 4 [3]
        ActionSpaceKind.other 2).map (fun b => b.action_alloc) =
      Except.ok none :=
  ⟨rfl, rfl⟩

/-- C5: sampling from a buffer whose stored count `_n` is zero fails fast
(numpy raises `ValueError` for an empty index range): `_sample_idx`,
`sample_latent` and `sample_sac` all error rather than returning data
from uninitialised slots. -/
theorem c5_sample_empty_fails
    {S A R A2 R2 : Type} (buf : SLACReplayBuffer S A R A2 R2)
    (batch_size : Nat) (g : Nat → Nat) (hn : buf._n = 0) :
    errored (buf._sample_idx batch_size g) = true
    ∧ errored (buf.sample_latent batch_size g) = true
    ∧ errored (buf.sample_sac batch_size g) = true := by
  simp [SLACReplayBuffer._sample_idx, SLACReplayBuffer.sample_latent,
    SLACReplayBuffer.sample_sac, npRandint, hn, errored, Except.map]

/-- A freshly constructed concrete buffer (capacity 4, two sequences,
1-D states, `Box` actions) with nothing stored yet. -/
def freshBuf : SLACReplayBuffer Nat Nat Nat Nat Nat :=
  { buffer_size := 4, num_sequences := 2, state_shape := [3],
    use_image := false, _n := 0, _p := 0,
    state_ := List.replicate 4 none, action_ := List.replicate 4 none,
    action_alloc := some (NpDType.float32, [4, 2, 1]),
    reward_ := List.replicate 4 none, done := List.replicate 4 none,
    seq_buffer := seqInit Nat Nat Nat 2 }

/-- C5 witness: the fail-fast behaviour at the concrete empty buffer. -/
theorem c5_witness :
    freshBuf._n = 0
    ∧ errored (freshBuf._sample_idx 3 (fun _ => 0)) = true
    ∧ errored (freshBuf.sample_latent 3 (fun _ => 0)) = true
    ∧ errored (freshBuf.sample_sac 3 (fun _ => 0)) = true := by
  have h := c5_sample_empty_fails freshBuf 3 (fun _ => 0) rfl
  exact ⟨rfl, h.1, h.2.1, h.2.2⟩

/-- C7: with `0 < _n ≤ buffer_size`, the index draw succeeds and returns
exactly `batch_size` indices, all in `[0, _n)` (slots at indices `≥ _n`
are never sampled); consequently all four arrays returned by
`sample_latent` and by `sample_sac` have leading dimension exactly
`batch_size`. -/
theorem c7_sample_shapes
    {S A R A2 R2 : Type} (buf : SLACReplayBuffer S A R A2 R2)
    (batch_size : Nat) (g : Nat → Nat)
    (hn : 0 < buf._n) (hcap : buf._n ≤ buf.buffer_size) :
    (∃ idxes, buf._sample_idx batch_size g = Except.ok idxes ∧
      idxes.length = batch_size ∧ ∀ i ∈ idxes, i < buf._n)
    ∧ (∀ out, buf.sample_latent batch_size g = Except.ok out →
        out.1.length = batch_size ∧ out.2.1.length = batch_size ∧
        out.2.2.1.length = batch_size ∧ out.2.2.2.length = batch_size)
    ∧ (∀ out, buf.sample_sac batch_size g = Except.ok out →
        out.1.length = batch_size ∧ out.2.1.length = batch_size ∧
        out.2.2.1.length = batch_size ∧ out.2.2.2.length = batch_size) := by
  have hidx : buf._sample_idx batch_size g =
      Except.ok ((List.range batch_size).map (fun i => g i % buf._n)) := by
    simp [SLACReplayBuffer._sample_idx, npRandint, hn]
  refine ⟨⟨(List.range batch_size).map (fun i => g i % buf._n), hidx,
      by simp, ?_⟩, ?_, ?_⟩
  · intro i hi
    simp [List.mem_map] at hi
    obtain ⟨j, hj, rfl⟩ := hi
    exact Nat.mod_lt _ hn
  · intro out hout
    simp only [SLACReplayBuffer.sample_latent, hidx, Except.map,
      Except.ok.injEq] at hout
    subst hout
    simp [SLACReplayBuffer._sample_state]
  · intro out hout
    simp only [SLACReplayBuffer.sample_sac, hidx, Except.map,
      Except.ok.injEq] at hout
    subst hout
    simp [SLACReplayBuffer._sample_state]

/-- A concrete buffer (capacity 2, two sequences) holding two stored
windows. -/
def fullBuf : SLACReplayBuffer Nat Nat Nat Nat Nat :=
  { buffer_size := 2, num_sequences := 2, state_shape := [3],
    use_image := false, _n := 2, _p := 0,
    state_ := [some ⟨[0, 1, 2]⟩, some ⟨[1, 2, 3]⟩],
    action_ := [some [10, 11], some [11, 12]],
    action_alloc := some (NpDType.float32, [2, 2, 1]),
    reward_ := [some [[20], [21]], some [[21], [22]]],
    done := [some 0, some 0],
    seq_buffer := seqInit Nat Nat Nat 2 }

/-- C7 witness: the shape guarantees at the concrete populated buffer. -/
theorem c7_witness :
    0 < fullBuf._n ∧ fullBuf._n ≤ fullBuf.buffer_size
    ∧ ((∃ idxes, fullBuf._sample_idx 3 id = Except.ok idxes ∧
          idxes.length = 3 ∧ ∀ i ∈ idxes, i < fullBuf._n)
      ∧ (∀ out, fullBuf.sample_latent 3 id = Except.ok out →
          out.1.length = 3 ∧ out.2.1.length = 3 ∧
          out.2.2.1.length = 3 ∧ out.2.2.2.length = 3)
      ∧ (∀ out, fullBuf.sample_sac 3 id = Except.ok out →
          out.1.length = 3 ∧ out.2.1.length = 3 ∧
          out.2.2.1.length = 3 ∧ out.2.2.2.length = 3)) :=
  ⟨by decide, by decide, c7_sample_shapes fullBuf 3 id (by decide) (by decide)⟩

/-- C6: on the same index draw, `sample_sac` returns exactly the data of
`sample_latent` except that each reward sequence is replaced by its last
time-step slice (index `num_sequences - 1`); states, actions and done
flags agree.  The hypothesis states the buffer's shape invariant: every
written reward slot holds a sequence of length `num_sequences`. -/
theorem c6_sac_reward_is_last_slice
    {S A R A2 R2 : Type} (buf : SLACReplayBuffer S A R A2 R2)
    (batch_size : Nat) (g : Nat → Nat)
    (hrows : ∀ o ∈ buf.reward_, ∀ rows, o = some rows →
      rows.length = buf.num_sequences)
    (outL : List (Option (LazyFrames S)) × List (Option (List A2))
      × List (Option (List (List R2))) × List (Option ℚ))
    (outS : List (Option (LazyFrames S)) × List (Option (List A2))
      × List (Option (List R2)) × List (Option ℚ))
    (hL : buf.sample_latent batch_size g = Except.ok outL)
    (hS : buf.sample_sac batch_size g = Except.ok outS) :
    outS.1 = outL.1 ∧ outS.2.1 = outL.2.1 ∧ outS.2.2.2 = outL.2.2.2
    ∧ outS.2.2.1 = outL.2.2.1.map (fun o =>
        o.bind (fun rows => rows[buf.num_sequences - 1]?)) := by
  have hn : 0 < buf._n := by
    by_contra hc
    have h0 : buf._n = 0 := by omega
    have := (c5_sample_empty_fails buf batch_size g h0).2.1
    rw [hL] at this
    simp [errored] at this
  have hidx : buf._sample_idx batch_size g =
      Except.ok ((List.range batch_size).map (fun i => g i % buf._n)) := by
    simp [SLACReplayBuffer._sample_idx, npRandint, hn]
  simp only [SLACReplayBuffer.sample_latent, SLACReplayBuffer.sample_sac,
    hidx, Except.map, Except.ok.injEq] at hL hS
  subst hL
  subst hS
  refine ⟨rfl, rfl, rfl, ?_⟩
  simp only [List.map_map]
  refine List.map_congr_left ?_
  intro i hi
  simp only [Function.comp]
  cases hjj : buf.reward_[g i % buf._n]? with
  | none =>
      have harr : arrGet buf.reward_ (g i % buf._n) = none := by
        simp [arrGet, hjj]
      simp [harr]
  | some o =>
      have hmem : o ∈ buf.reward_ := List.getElem?_mem hjj
      have harr : arrGet buf.reward_ (g i % buf._n) = o := by
        simp [arrGet, hjj]
      cases o with
      | none => simp [harr]
      | some rows =>
          have hlen : rows.length = buf.num_sequences :=
            hrows (some rows) hmem rows rfl
          simp [harr, lastStep, hlen]

/-- C6 witness: the slice relation at the concrete populated buffer, with
the shape hypothesis discharged. -/
theorem c6_witness :
    (∀ o ∈ fullBuf.reward_, ∀ rows : List (List Nat), o = some rows →
      rows.length = fullBuf.num_sequences)
    ∧ (((fullBuf.state_, [some [10, 11], some [11, 12]],
          [some [21], some [22]], [some (0 : ℚ), some 0]).2.2.1 :
            List (Option (List Nat))) =
        ((fullBuf.state_, [some [10, 11], some [11, 12]],
          [some [[20], [21]], some [[21], [22]]],
          [some (0 : ℚ), some 0]).2.2.1).map (fun o =>
          o.bind (fun rows => rows[fullBuf.num_sequences - 1]?))) := by
  have hrows : ∀ o ∈ fullBuf.reward_, ∀ rows : List (List Nat),
      o = some rows → rows.length = fullBuf.num_sequences := by
    intro o ho rows h
    simp [fullBuf] at ho
    rcases ho with rfl | rfl
    · cases h; rfl
    · cases h; rfl
  have h := c6_sac_reward_is_last_slice fullBuf 2 id hrows
    (fullBuf.state_, [some [10, 11], some [11, 12]],
      [some [[20], [21]], some [[21], [22]]], [some (0 : ℚ), some 0])
    (fullBuf.state_, [some [10, 11], some [11, 12]],
      [some [21], some [22]], [some (0 : ℚ), some 0])
    rfl rfl
  exact ⟨hrows, h.2.2.2⟩

/-- Sequential writes into a circular array of capacity `C`: write the
values `vs` in order at positions `s % C`, `(s + 1) % C`, ….  This is what
iterating `SLACReplayBuffer._append` does to each of its four arrays. -/
def ringWrites (C : Nat) : List α → Nat → List α → List α
  | l, _, [] => l
  | l, s, v :: vs => ringWrites C (l.set (s % C) v) (s + 1) vs

/-- Circular writes preserve the array length. -/
theorem ringWrites_length (C : Nat) (vs : List α) :
    ∀ (l : List α) (s : Nat), (ringWrites C l s vs).length = l.length := by
  induction vs with
  | nil => intro l s; rfl
  | cons v vs ih =>
      intro l s
      simp [ringWrites, ih]

/-- Unfolding a circular write sequence from the right: the last value is
written at position `(s + vs.length) % C` over the result of the earlier
writes. -/
theorem ringWrites_snoc (C : Nat) (w : α) (vs : List α) :
    ∀ (l : List α) (s : Nat),
      ringWrites C l s (vs ++ [w]) =
        (ringWrites C l s vs).set ((s + vs.length) % C) w := by
  induction vs with
  | nil =>
      intro l s
      simp [ringWrites]
  | cons v vs ih =>
      intro l s
      simp only [List.cons_append, ringWrites, List.length_cons,
        List.append_eq]
      rw [ih]
      have h1 : s + 1 + vs.length = s + (vs.length + 1) := by omega
      rw [h1]

/-- The start position of a circular write sequence only matters modulo
the capacity. -/
theorem ringWrites_start_mod (C : Nat) (vs : List α) :
    ∀ (l : List α) (s : Nat),
      ringWrites C l s vs = ringWrites C l (s % C) vs := by
  induction vs with
  | nil => intro l s; rfl
  | cons v vs ih =>
      intro l s
      simp only [ringWrites]
      rw [Nat.mod_mod_of_dvd s dvd_rfl]
      rw [ih _ (s + 1), ih _ (s % C + 1)]
      have h2 : (s + 1) % C = (s % C + 1) % C := by
        conv_rhs => rw [Nat.add_mod]
        rw [Nat.mod_mod_of_dvd _ dvd_rfl, ← Nat.add_mod]
      rw [h2]

/-- Fewer writes than the capacity land at consecutive positions starting
at slot `0`: slot `i` holds the `i`-th value. -/
theorem ringWrites_below_capacity (C : Nat) (vs : List α) :
    ∀ l : List α, l.length = C → vs.length ≤ C →
    ∀ i, i < vs.length → (ringWrites C l 0 vs)[i]? = vs[i]? := by
  induction vs using List.reverseRecOn with
  | nil =>
      intro l hl hlen i hi
      simp at hi
  | append_singleton ys w ih =>
      intro l hl hlen i hi
      rw [ringWrites_snoc]
      have hys : ys.length < C := by
        simp at hlen
        omega
      have hpos : (0 + ys.length) % C = ys.length := by
        simp [Nat.mod_eq_of_lt hys]
      rw [hpos]
      simp only [List.length_append, List.length_cons, List.length_nil] at hi
      rcases Nat.lt_or_ge i ys.length with hlt | hge
      · rw [List.getElem?_set_ne (by omega : ys.length ≠ i)]
        rw [ih l hl (by omega) i hlt]
        simp [List.getElem?_append, hlt]
      · have hieq : i = ys.length := by omega
        subst hieq
        have hlen2 : ys.length < (ringWrites C l 0 ys).length := by
          rw [ringWrites_length, hl]
          exact hys
        simp [List.getElem?_set_self, hlen2]

/-- FIFO characterisation of at-capacity circular writes: after writing
`vs` (with `C ≤ vs.length`) starting at slot `0`, reading `C` slots in
ring order from the final cursor yields the last `C` written values in
order — older values have been overwritten. -/
theorem ringWrites_full (C : Nat) (hC : 0 < C) (vs : List α) :
    ∀ l : List α, l.length = C → C ≤ vs.length →
    ∀ i, i < C →
      (ringWrites C l 0 vs)[(vs.length + i) % C]? = vs[vs.length - C + i]? := by
  induction vs using List.reverseRecOn with
  | nil =>
      intro l hl hlen i hi
      simp at hlen
      omega
  | append_singleton ys w ih =>
      intro l hl hlen i hi
      rw [ringWrites_snoc]
      simp only [List.length_append, List.length_cons, List.length_nil]
      simp only [List.length_append, List.length_cons, List.length_nil] at hlen
      have hpos : (0 + ys.length) % C = ys.length % C := by simp
      rw [hpos]
      rcases Nat.lt_or_ge i (C - 1) with hlt | hge
      · have hne : ys.length % C ≠ (ys.length + 1 + i) % C := by
          intro he
          have h4 : ys.length ≤ ys.length + (1 + i) := by omega
          have h5 : ys.length % C = (ys.length + (1 + i)) % C := by
            rw [← Nat.add_assoc]
            exact he
          have h6 := (Nat.modEq_iff_dvd' h4).mp h5
          have h7 : C ∣ 1 + i := by simpa using h6
          have h8 := Nat.le_of_dvd (by omega) h7
          omega
        rw [List.getElem?_set_ne hne]
        rcases Nat.lt_or_ge ys.length C with hycase | hycase
        · have hidx : (ys.length + 1 + i) % C = i := by
            have h9 : ys.length + 1 + i = C + i := by omega
            rw [h9, Nat.add_mod_left]
            exact Nat.mod_eq_of_lt (by omega)
          rw [hidx]
          rw [ringWrites_below_capacity C ys l hl (by omega) i (by omega)]
          have hridx : ys.length + 1 - C + i = i := by omega
          rw [hridx]
          simp [List.getElem?_append, (by omega : i < ys.length)]
        · have h2 := ih l hl hycase (i + 1) (by omega)
          have hidx : (ys.length + 1 + i) % C = (ys.length + (i + 1)) % C := by
            have h10 : ys.length + 1 + i = ys.length + (i + 1) := by omega
            rw [h10]
          rw [hidx, h2]
          have hridx : ys.length + 1 - C + i = ys.length - C + (i + 1) := by
            omega
          rw [hridx]
          have hlt2 : ys.length - C + (i + 1) < ys.length := by omega
          simp [List.getElem?_append, hlt2]
      · have hieq : i = C - 1 := by omega
        subst hieq
        have hidx : (ys.length + 1 + (C - 1)) % C = ys.length % C := by
          have h11 : ys.length + 1 + (C - 1) = ys.length + C := by omega
          rw [h11, Nat.add_mod_right]
        have hridx : ys.length + 1 - C + (C - 1) = ys.length := by omega
        rw [hidx, hridx]
        have hlt3 : ys.length % C < (ringWrites C l 0 ys).length := by
          rw [ringWrites_length, hl]
          exact Nat.mod_lt _ hC
        simp [List.getElem?_set_self, hlt3]

/-- A completed trajectory window as flushed by `SLACReplayBuffer.append`
into `_append`: the materialised state sequence, action sequence, reward
sequence, and the done flag. -/
structure SlacWindow (S A2 R2 : Type) where
  states : LazyFrames S
  actions : List A2
  rewards : List (List R2)
  doneFlag : Bool
deriving DecidableEq

/-- Flush a list of completed windows into the circular store by iterating
`SLACReplayBuffer._append`. -/
def flushMany (buf : SLACReplayBuffer S A R A2 R2)
    (ws : List (SlacWindow S A2 R2)) : SLACReplayBuffer S A R A2 R2 :=
  List.foldl
    (fun b w => b._append w.states w.actions w.rewards w.doneFlag) buf ws

/-- Arithmetic of the capped count under one more append. -/
theorem min_fold (a L C : Nat) :
    min (min (a + 1) C + L) C = min (a + (L + 1)) C := by
  rcases Nat.le_total (a + 1) C with h | h
  · rw [min_eq_left h]
    have h1 : a + 1 + L = a + (L + 1) := by omega
    rw [h1]
  · rw [min_eq_right h, min_eq_right (by omega : C ≤ C + L),
      min_eq_right (by omega : C ≤ a + (L + 1))]

/-- Iterating `_append` over a window list is exactly a circular write
sequence on each of the four arrays, with the cursor advanced by the
number of windows modulo the capacity and the count capped at the
capacity. -/
theorem flushMany_spec (ws : List (SlacWindow S A2 R2)) :
    ∀ buf : SLACReplayBuffer S A R A2 R2,
    0 < buf.buffer_size → buf._p < buf.buffer_size →
    buf._n ≤ buf.buffer_size →
    (flushMany buf ws).buffer_size = buf.buffer_size
    ∧ (flushMany buf ws)._p = (buf._p + ws.length) % buf.buffer_size
    ∧ (flushMany buf ws)._n = min (buf._n + ws.length) buf.buffer_size
    ∧ (flushMany buf ws).state_ =
        ringWrites buf.buffer_size buf.state_ buf._p
          (ws.map (fun w => some w.states))
    ∧ (flushMany buf ws).action_ =
        ringWrites buf.buffer_size buf.action_ buf._p
          (ws.map (fun w => some w.actions))
    ∧ (flushMany buf ws).reward_ =
        ringWrites buf.buffer_size buf.reward_ buf._p
          (ws.map (fun w => some w.rewards))
    ∧ (flushMany buf ws).done =
        ringWrites buf.buffer_size buf.done buf._p
          (ws.map (fun w => some (if w.doneFlag then (1 : ℚ) else 0))) := by
  induction ws with
  | nil =>
      intro buf hC hp hn
      refine ⟨rfl, ?_, ?_, rfl, rfl, rfl, rfl⟩
      · simp [flushMany, Nat.mod_eq_of_lt hp]
      · simp only [flushMany, List.foldl_nil, List.length_nil, Nat.add_zero]
        rw [min_eq_left hn]
  | cons w ws ih =>
      intro buf hC hp hn
      have hstep : flushMany buf (w :: ws) =
          flushMany (buf._append w.states w.actions w.rewards w.doneFlag)
            ws := rfl
      obtain ⟨hbs, hp2, hn2, hst, hac, hrw, hdn⟩ :=
        ih (buf._append w.states w.actions w.rewards w.doneFlag)
          hC (Nat.mod_lt _ hC) (by simp [SLACReplayBuffer._append])
      rw [hstep]
      have hCeq : (buf._append w.states w.actions w.rewards
          w.doneFlag).buffer_size = buf.buffer_size := rfl
      refine ⟨hbs, ?_, ?_, ?_, ?_, ?_, ?_⟩
      · rw [hp2]
        simp only [SLACReplayBuffer._append, List.length_cons]
        conv_lhs => rw [Nat.add_mod]
        rw [Nat.mod_mod_of_dvd _ dvd_rfl, ← Nat.add_mod]
        have h1 : buf._p + 1 + ws.length = buf._p + (ws.length + 1) := by
          omega
        rw [h1]
      · rw [hn2]
        simp only [SLACReplayBuffer._append, List.length_cons]
        exact min_fold buf._n ws.length buf.buffer_size
      · rw [hst]
        simp only [SLACReplayBuffer._append, List.map_cons, ringWrites]
        rw [Nat.mod_eq_of_lt hp]
        conv_rhs => rw [ringWrites_start_mod]
      · rw [hac]
        simp only [SLACReplayBuffer._append, List.map_cons, ringWrites]
        rw [Nat.mod_eq_of_lt hp]
        conv_rhs => rw [ringWrites_start_mod]
      · rw [hrw]
        simp only [SLACReplayBuffer._append, List.map_cons, ringWrites]
        rw [Nat.mod_eq_of_lt hp]
        conv_rhs => rw [ringWrites_start_mod]
      · rw [hdn]
        simp only [SLACReplayBuffer._append, List.map_cons, ringWrites]
        rw [Nat.mod_eq_of_lt hp]
        conv_rhs => rw [ringWrites_start_mod]

/-- Concrete end-to-end run matching the spec's worked example: capacity
4, `num_sequences` 2, one never-ending episode fed through
`SLACReplayBuffer.append` so that five completed windows W0..W4 are
flushed (the first flush happens on the second append, then one flush per
append). -/
def c2run : Except String (SLACReplayBuffer Nat Nat Nat Nat Nat) :=
  (SLACReplayBuffer.mkInit Nat Nat Nat Nat Nat 4 [1]
      (ActionSpaceKind.box [1]) 2).bind (fun b0 =>
  (b0.reset_episode 0).bind (fun b1 =>
  (b1.append id id 100 200 false 1 false).bind (fun b2 =>
  (b2.append id id 101 201 false 2 false).bind (fun b3 =>
  (b3.append id id 102 202 false 3 false).bind (fun b4 =>
  (b4.append id id 103 203 false 4 false).bind (fun b5 =>
  (b5.append id id 104 204 false 5 false).bind (fun b6 =>
  b6.append id id 105 205 false 6 false)))))))

/-- C2: FIFO eviction.  General part: starting from a fresh circular
store (cursor and count zero, arrays of length `buffer_size`), flushing
more than `buffer_size` completed windows leaves the cursor at
`ws.length % buffer_size`, the count at capacity, and reading the slots
in ring order yields exactly the `buffer_size` most recently flushed
windows in order.  Concrete part (the spec's example): capacity 4, N = 2,
five windows W0..W4 fed in one unending episode leave stored slots
[W4, W1, W2, W3] with cursor 1 and count 4, and index 0 returns W4's
data. -/
theorem c2_fifo_eviction
    {S A R A2 R2 : Type} (buf : SLACReplayBuffer S A R A2 R2)
    (ws : List (SlacWindow S A2 R2))
    (hC : 0 < buf.buffer_size)
    (hp : buf._p = 0) (hn : buf._n = 0)
    (hsl : buf.state_.length = buf.buffer_size)
    (hal : buf.action_.length = buf.buffer_size)
    (hrl : buf.reward_.length = buf.buffer_size)
    (hdl : buf.done.length = buf.buffer_size)
    (hlen : buf.buffer_size < ws.length) :
    ((flushMany buf ws)._p = ws.length % buf.buffer_size
    ∧ (flushMany buf ws)._n = buf.buffer_size
    ∧ ∀ i, i < buf.buffer_size →
        ((flushMany buf ws).state_[(ws.length + i) % buf.buffer_size]? =
            (ws[ws.length - buf.buffer_size + i]?).map
              (fun w => some w.states)
        ∧ (flushMany buf ws).action_[(ws.length + i) % buf.buffer_size]? =
            (ws[ws.length - buf.buffer_size + i]?).map
              (fun w => some w.actions)
        ∧ (flushMany buf ws).reward_[(ws.length + i) % buf.buffer_size]? =
            (ws[ws.length - buf.buffer_size + i]?).map
              (fun w => some w.rewards)
        ∧ (flushMany buf ws).done[(ws.length + i) % buf.buffer_size]? =
            (ws[ws.length - buf.buffer_size + i]?).map
              (fun w => some (if w.doneFlag then (1 : ℚ) else 0))))
    ∧ c2run.map (fun b =>
        (b._p, b._n, b.state_, b.action_, b.reward_, b.done)) =
      Except.ok (1, 4,
        [some ⟨[4, 5, 6]⟩, some ⟨[1, 2, 3]⟩, some ⟨[2, 3, 4]⟩,
          some ⟨[3, 4, 5]⟩],
        [some [104, 105], some [101, 102], some [102, 103],
          some [103, 104]],
        [some [[204], [205]], some [[201], [202]], some [[202], [203]],
          some [[203], [204]]],
        [some 0, some 0, some 0, some 0])
    ∧ c2run.map (fun b =>
        (arrGet b.state_ 0, arrGet b.action_ 0, arrGet b.reward_ 0)) =
      Except.ok (some ⟨[4, 5, 6]⟩, some [104, 105],
        some [[204], [205]]) := by
  obtain ⟨hbs, hp2, hn2, hst, hac, hrw, hdn⟩ :=
    flushMany_spec ws buf hC (by omega) (by omega)
  refine ⟨⟨?_, ?_, ?_⟩, by rfl, by rfl⟩
  · rw [hp2, hp]
    simp
  · rw [hn2, hn]
    simp only [Nat.zero_add]
    exact min_eq_right (by omega)
  · intro i hi
    refine ⟨?_, ?_, ?_, ?_⟩
    · rw [hst, hp]
      have h1 := ringWrites_full buf.buffer_size hC
        (ws.map (fun w => some w.states)) buf.state_ hsl
        (by simp; omega) i hi
      simp only [List.length_map] at h1
      rw [h1]
      simp [List.getElem?_map]
    · rw [hac, hp]
      have h1 := ringWrites_full buf.buffer_size hC
        (ws.map (fun w => some w.actions)) buf.action_ hal
        (by simp; omega) i hi
      simp only [List.length_map] at h1
      rw [h1]
      simp [List.getElem?_map]
    · rw [hrw, hp]
      have h1 := ringWrites_full buf.buffer_size hC
        (ws.map (fun w => some w.rewards)) buf.reward_ hrl
        (by simp; omega) i hi
      simp only [List.length_map] at h1
      rw [h1]
      simp [List.getElem?_map]
    · rw [hdn, hp]
      have h1 := ringWrites_full buf.buffer_size hC
        (ws.map (fun w => some (if w.doneFlag then (1 : ℚ) else 0)))
        buf.done hdl (by simp; omega) i hi
      simp only [List.length_map] at h1
      rw [h1]
      simp [List.getElem?_map]

/-- A fresh concrete circular store of capacity 2 (single-step windows)
for instantiating the FIFO theorem. -/
def bufW : SLACReplayBuffer Nat Nat Nat Nat Nat :=
  { buffer_size := 2, num_sequences := 1, state_shape := [1],
    use_image := false, _n := 0, _p := 0,
    state_ := [none, none], action_ := [none, none],
    action_alloc := some (NpDType.float32, [2, 1, 1]),
    reward_ := [none, none], done := [none, none],
    seq_buffer := seqInit Nat Nat Nat 1 }

/-- Three concrete windows, one more than `bufW`'s capacity. -/
def wsW : List (SlacWindow Nat Nat Nat) :=
  [⟨⟨[0, 1]⟩, [10], [[20]], false⟩,
   ⟨⟨[1, 2]⟩, [11], [[21]], false⟩,
   ⟨⟨[2, 3]⟩, [12], [[22]], false⟩]

/-- C2 witness: the FIFO theorem applied to the concrete capacity-2 store
and three windows. -/
theorem c2_witness :
    (0 < bufW.buffer_size ∧ bufW._p = 0 ∧ bufW._n = 0
      ∧ bufW.state_.length = bufW.buffer_size
      ∧ bufW.action_.length = bufW.buffer_size
      ∧ bufW.reward_.length = bufW.buffer_size
      ∧ bufW.done.length = bufW.buffer_size
      ∧ bufW.buffer_size < wsW.length)
    ∧ (((flushMany bufW wsW)._p = wsW.length % bufW.buffer_size
    ∧ (flushMany bufW wsW)._n = bufW.buffer_size
    ∧ ∀ i, i < bufW.buffer_size →
        ((flushMany bufW wsW).state_[(wsW.length + i) % bufW.buffer_size]? =
            (wsW[wsW.length - bufW.buffer_size + i]?).map
              (fun w => some w.states)
        ∧ (flushMany bufW wsW).action_[(wsW.length + i) % bufW.buffer_size]? =
            (wsW[wsW.length - bufW.buffer_size + i]?).map
              (fun w => some w.actions)
        ∧ (flushMany bufW wsW).reward_[(wsW.length + i) % bufW.buffer_size]? =
            (wsW[wsW.length - bufW.buffer_size + i]?).map
              (fun w => some w.rewards)
        ∧ (flushMany bufW wsW).done[(wsW.length + i) % bufW.buffer_size]? =
            (wsW[wsW.length - bufW.buffer_size + i]?).map
              (fun w => some (if w.doneFlag then (1 : ℚ) else 0))))
    ∧ c2run.map (fun b =>
        (b._p, b._n, b.state_, b.action_, b.reward_, b.done)) =
      Except.ok (1, 4,
        [some ⟨[4, 5, 6]⟩, some ⟨[1, 2, 3]⟩, some ⟨[2, 3, 4]⟩,
          some ⟨[3, 4, 5]⟩],
        [some [104, 105], some [101, 102], some [102, 103],
          some [103, 104]],
        [some [[204], [205]], some [[201], [202]], some [[202], [203]],
          some [[203], [204]]],
        [some 0, some 0, some 0, some 0])
    ∧ c2run.map (fun b =>
        (arrGet b.state_ 0, arrGet b.action_ 0, arrGet b.reward_ 0)) =
      Except.ok (some ⟨[4, 5, 6]⟩, some [104, 105],
        some [[204], [205]])) := by
  refine ⟨⟨by decide, rfl, rfl, rfl, rfl, rfl, rfl, by decide⟩, ?_⟩
  exact c2_fifo_eviction bufW wsW (by decide) rfl rfl rfl rfl rfl rfl
    (by decide)

/-- C10: when the internal sequence buffer is full (in an episode with
positive `num_sequences` and the protocol deque lengths), a further
`SLACReplayBuffer.append` with `episode_done = false` succeeds, leaves
the sequence buffer full again (so every subsequent call flushes too),
flushes exactly one window — advancing the cursor and count — and the
flushed window is the previous window shifted by one transition (oldest
state/action/reward dropped, new one appended), i.e. consecutive stored
windows of an episode overlap in all but one transition.  With
`episode_done = true` the same flush happens but the sequence buffer is
then reset (empty deques, episode flag cleared). -/
theorem c10_flush_every_append
    {S A R A2 R2 : Type} (buf : SLACReplayBuffer S A R A2 R2)
    (castA : A → A2) (castR : R → R2) (a : A) (r : R) (d : Bool) (ns : S)
    (hflag : buf.seq_buffer._reset_episode = true)
    (hfull : buf.seq_buffer.is_full = true)
    (hN : 0 < buf.seq_buffer.num_sequences)
    (hact : buf.seq_buffer.action_.length = buf.seq_buffer.num_sequences)
    (hstl : buf.seq_buffer.state_.length =
      buf.seq_buffer.num_sequences + 1) :
    (∃ buf2, buf.append castA castR a r d ns false = Except.ok buf2
      ∧ buf2.seq_buffer.is_full = true
      ∧ buf2._p = (buf._p + 1) % buf.buffer_size
      ∧ buf2._n = min (buf._n + 1) buf.buffer_size
      ∧ buf2.state_ = buf.state_.set buf._p
          (some ⟨buf.seq_buffer.state_.tail ++ [ns]⟩)
      ∧ buf2.action_ = buf.action_.set buf._p
          (some ((buf.seq_buffer.action_.tail ++ [a]).map castA))
      ∧ buf2.reward_ = buf.reward_.set buf._p
          (some ((buf.seq_buffer.reward_.tail ++ [[r]]).map
            (List.map castR)))
      ∧ buf2.done = buf.done.set buf._p (some (if d then (1 : ℚ) else 0)))
    ∧ (∃ buf3, buf.append castA castR a r d ns true = Except.ok buf3
      ∧ buf3.seq_buffer._reset_episode = false
      ∧ buf3.seq_buffer.state_ = []
      ∧ buf3.seq_buffer.action_ = []
      ∧ buf3.seq_buffer.reward_ = []
      ∧ buf3._p = (buf._p + 1) % buf.buffer_size) := by
  have hrlen : buf.seq_buffer.reward_.length =
      buf.seq_buffer.num_sequences := by
    simpa [SequenceBuffer.is_full] using hfull
  have hpa := dequePush_at_capacity _ buf.seq_buffer.action_ a hact hN
  have hpr := dequePush_at_capacity _ buf.seq_buffer.reward_ [r] hrlen hN
  have hps := dequePush_at_capacity _ buf.seq_buffer.state_ ns hstl
    (by omega)
  have hsbv : buf.seq_buffer.append a r ns = Except.ok
      { buf.seq_buffer with
        action_ := buf.seq_buffer.action_.tail ++ [a],
        reward_ := buf.seq_buffer.reward_.tail ++ [[r]],
        state_ := buf.seq_buffer.state_.tail ++ [ns] } := by
    simp [SequenceBuffer.append, hflag, hpa, hpr, hps]
  have hfull2 : ({ buf.seq_buffer with
        action_ := buf.seq_buffer.action_.tail ++ [a],
        reward_ := buf.seq_buffer.reward_.tail ++ [[r]],
        state_ := buf.seq_buffer.state_.tail ++ [ns] } :
          SequenceBuffer S A R).is_full = true := by
    simp [SequenceBuffer.is_full]
    omega
  constructor
  · refine ⟨{ buf with
        seq_buffer := { buf.seq_buffer with
          action_ := buf.seq_buffer.action_.tail ++ [a],
          reward_ := buf.seq_buffer.reward_.tail ++ [[r]],
          state_ := buf.seq_buffer.state_.tail ++ [ns] },
        state_ := buf.state_.set buf._p
          (some ⟨buf.seq_buffer.state_.tail ++ [ns]⟩),
        action_ := buf.action_.set buf._p
          (some ((buf.seq_buffer.action_.tail ++ [a]).map castA)),
        reward_ := buf.reward_.set buf._p
          (some ((buf.seq_buffer.reward_.tail ++ [[r]]).map
            (List.map castR))),
        done := buf.done.set buf._p (some (if d then (1 : ℚ) else 0)),
        _p := (buf._p + 1) % buf.buffer_size,
        _n := min (buf._n + 1) buf.buffer_size },
      ?_, ?_, ?_, ?_, ?_, ?_, ?_, ?_⟩
    · simp only [SLACReplayBuffer.append, hsbv, Except.map, hfull2,
        if_true, SequenceBuffer.get, SLACReplayBuffer._append,
        Bool.false_eq_true, if_false]
    · exact hfull2
    · rfl
    · rfl
    · rfl
    · rfl
    · rfl
    · rfl
  · refine ⟨{ buf with
        seq_buffer := SequenceBuffer.reset { buf.seq_buffer with
          action_ := buf.seq_buffer.action_.tail ++ [a],
          reward_ := buf.seq_buffer.reward_.tail ++ [[r]],
          state_ := buf.seq_buffer.state_.tail ++ [ns] },
        state_ := buf.state_.set buf._p
          (some ⟨buf.seq_buffer.state_.tail ++ [ns]⟩),
        action_ := buf.action_.set buf._p
          (some ((buf.seq_buffer.action_.tail ++ [a]).map castA)),
        reward_ := buf.reward_.set buf._p
          (some ((buf.seq_buffer.reward_.tail ++ [[r]]).map
            (List.map castR))),
        done := buf.done.set buf._p (some (if d then (1 : ℚ) else 0)),
        _p := (buf._p + 1) % buf.buffer_size,
        _n := min (buf._n + 1) buf.buffer_size },
      ?_, ?_, ?_, ?_, ?_, ?_⟩
    · simp only [SLACReplayBuffer.append, hsbv, Except.map, hfull2,
        if_true, SequenceBuffer.get, SLACReplayBuffer._append]
    · rfl
    · rfl
    · rfl
    · rfl
    · rfl

/-- A concrete buffer whose internal sequence buffer is full
(`num_sequences = 1`) mid-episode. -/
def bufT : SLACReplayBuffer Nat Nat Nat Nat Nat :=
  { buffer_size := 2, num_sequences := 1, state_shape := [1],
    use_image := false, _n := 0, _p := 0,
    state_ := [none, none], action_ := [none, none],
    action_alloc := some (NpDType.float32, [2, 1, 1]),
    reward_ := [none, none], done := [none, none],
    seq_buffer := SequenceBuffer.mk 1 true [5, 6] [7] [[8]] }

/-- C10 witness: the flush-on-every-append theorem at the concrete full
buffer. -/
theorem c10_witness :
    (bufT.seq_buffer._reset_episode = true
      ∧ bufT.seq_buffer.is_full = true
      ∧ 0 < bufT.seq_buffer.num_sequences
      ∧ bufT.seq_buffer.action_.length = bufT.seq_buffer.num_sequences
      ∧ bufT.seq_buffer.state_.length = bufT.seq_buffer.num_sequences + 1)
    ∧ ((∃ buf2, bufT.append id id 9 10 false 11 false = Except.ok buf2
        ∧ buf2.seq_buffer.is_full = true
        ∧ buf2._p = (bufT._p + 1) % bufT.buffer_size
        ∧ buf2._n = min (bufT._n + 1) bufT.buffer_size
        ∧ buf2.state_ = bufT.state_.set bufT._p
            (some ⟨bufT.seq_buffer.state_.tail ++ [11]⟩)
        ∧ buf2.action_ = bufT.action_.set bufT._p
            (some ((bufT.seq_buffer.action_.tail ++ [9]).map id))
        ∧ buf2.reward_ = bufT.reward_.set bufT._p
            (some ((bufT.seq_buffer.reward_.tail ++ [[10]]).map
              (List.map id)))
        ∧ buf2.done = bufT.done.set bufT._p
            (some (if false then (1 : ℚ) else 0)))
      ∧ (∃ buf3, bufT.append id id 9 10 false 11 true = Except.ok buf3
        ∧ buf3.seq_buffer._reset_episode = false
        ∧ buf3.seq_buffer.state_ = []
        ∧ buf3.seq_buffer.action_ = []
        ∧ buf3.seq_buffer.reward_ = []
        ∧ buf3._p = (bufT._p + 1) % bufT.buffer_size)) := by
  refine ⟨⟨rfl, by decide, by decide, rfl, rfl⟩, ?_⟩
  exact c10_flush_every_append bufT id id 9 10 false 11 rfl (by decide)
    (by decide) rfl rfl
